import Mathlib

/-!
Verification of the schedule ingestion pipeline of `nba-bot.py`.

The components of the script are shallowly embedded here:
* `convert_et_to_paris` — the time converter (Python `datetime.strptime`,
  `pytz` `localize`/`astimezone`, `strftime`);
* `init_db` — schema creation over a sqlite connection;
* `save_to_db` — batch insertion into the `games` table;
* `fetch_cavs_schedule` — the fetcher (agent call, completion call, JSON parse);
* `listOrderedByDate` — the `SELECT ... ORDER BY date` read of the notifier.

Dates and times are modelled on the proleptic Gregorian calendar exactly as
the Python `datetime` module does (ordinals with 0001-01-01 ↦ 1).  Time-zone offsets
model the behaviour of `pytz` with the current (post-2007 US, post-1996 EU)
daylight-saving rules, which are the rules in force for every date this
program handles; `localize` is modelled with its default `is_dst=False`
disambiguation of ambiguous/nonexistent wall-clock times.
-/

namespace NbaBot

/-! ### Calendar arithmetic (Python `datetime`, proleptic Gregorian) -/

/-- Leap-year test, as in Python `calendar.isleap`. -/
def isLeap (y : Int) : Bool :=
  (y % 4 == 0 && y % 100 != 0) || y % 400 == 0

/-- Number of days in month `m` (1-based) of year `y`. -/
def daysInMonth (y m : Int) : Int :=
  if m = 2 then (if isLeap y then 29 else 28)
  else if m = 4 ∨ m = 6 ∨ m = 9 ∨ m = 11 then 30
  else 31

/-- Days of year `y` that lie strictly before month `m` (1-based). -/
def daysBeforeMonth (y m : Int) : Int :=
  (if m = 1 then 0 else if m = 2 then 31 else if m = 3 then 59 else if m = 4 then 90
   else if m = 5 then 120 else if m = 6 then 151 else if m = 7 then 181 else if m = 8 then 212
   else if m = 9 then 243 else if m = 10 then 273 else if m = 11 then 304 else 334)
  + (if 3 ≤ m ∧ isLeap y = true then 1 else 0)

/-- Python `date.toordinal`: day number of `y-m-d`, with 0001-01-01 ↦ 1. -/
def toOrdinal (y m d : Int) : Int :=
  365*(y-1) + (y-1) / 4 - (y-1) / 100 + (y-1) / 400
    + daysBeforeMonth y m + d

/-- Python `date.weekday`: Monday ↦ 0, …, Sunday ↦ 6 (0001-01-01 was a Monday). -/
def pyWeekday (o : Int) : Int := (o + 6) % 7

/-- Inverse of `toOrdinal` (the standard civil-from-days computation),
returning `(year, month, day)`. -/
def civilFromOrdinal (o : Int) : Int × Int × Int :=
  let z := o - 719163 + 719468
  let era := z / 146097
  let doe := z - era * 146097
  let yoe := (doe - doe / 1460 + doe / 36524 - doe / 146096) / 365
  let y := yoe + era * 400
  let doy := doe - (365*yoe + yoe / 4 - yoe / 100)
  let mp := (5*doy + 2) / 153
  let d := doy - (153*mp + 2) / 5 + 1
  let m := mp + (if mp < 10 then 3 else -9)
  (if m ≤ 2 then y + 1 else y, m, d)

/-- A wall-clock or UTC datetime is represented as minutes since
0001-01-01 00:00 (ordinal × 1440 + hour × 60 + minute).  This extracts the
calendar year of such a minute count. -/
def yearOfMinutes (t : Int) : Int := (civilFromOrdinal (t / 1440)).1

/-- Ordinal of the first Sunday on or after ordinal `o`. -/
def firstSundayOnOrAfter (o : Int) : Int := o + (6 - pyWeekday o)

/-- Second Sunday of March of year `y` (US DST start day). -/
def secondSundayOfMarch (y : Int) : Int := firstSundayOnOrAfter (toOrdinal y 3 1) + 7

/-- First Sunday of November of year `y` (US DST end day). -/
def firstSundayOfNovember (y : Int) : Int := firstSundayOnOrAfter (toOrdinal y 11 1)

/-- Last Sunday of March of year `y` (EU DST start day; March has 31 days, so
the last Sunday is the first Sunday on or after March 25). -/
def lastSundayOfMarch (y : Int) : Int := firstSundayOnOrAfter (toOrdinal y 3 25)

/-- Last Sunday of October of year `y` (EU DST end day). -/
def lastSundayOfOctober (y : Int) : Int := firstSundayOnOrAfter (toOrdinal y 10 25)

/-! ### pytz offsets, in minutes east of UTC (wall = utc + offset)

US/Eastern switches at 02:00 local (EST 02:00 → EDT 03:00 on the second
Sunday of March; EDT 02:00 → EST 01:00 on the first Sunday of November).
Europe/Paris switches at 01:00 UTC (CET 02:00 → CEST 03:00 on the last
Sunday of March; CEST 03:00 → CET 02:00 on the last Sunday of October).

`localize(dt, is_dst=False)` (the `pytz` default used by the script) attaches
the DST offset exactly to wall clocks in the half-open DST window measured in
*standard-resolved* wall time: nonexistent spring-forward clocks and ambiguous
fall-back clocks both get the standard (winter) offset. -/

/-- Offset attached by `pytz.timezone("US/Eastern").localize(dt, is_dst=False)`
to the wall-clock minute count `w`. -/
def etOffsetLocal (w : Int) : Int :=
  let y := yearOfMinutes w
  if secondSundayOfMarch y * 1440 + 180 ≤ w ∧ w < firstSundayOfNovember y * 1440 + 60
  then -240 else -300

/-- US/Eastern offset in force at the UTC minute count `u`
(`astimezone` direction; transition instants 07:00 UTC and 06:00 UTC). -/
def etOffsetInstant (u : Int) : Int :=
  let y := yearOfMinutes u
  if secondSundayOfMarch y * 1440 + 420 ≤ u ∧ u < firstSundayOfNovember y * 1440 + 360
  then -240 else -300

/-- Offset attached by `pytz.timezone("Europe/Paris").localize(dt, is_dst=False)`
to the wall-clock minute count `w`. -/
def parisOffsetLocal (w : Int) : Int :=
  let y := yearOfMinutes w
  if lastSundayOfMarch y * 1440 + 180 ≤ w ∧ w < lastSundayOfOctober y * 1440 + 120
  then 120 else 60

/-- Europe/Paris offset in force at the UTC minute count `u`
(transition instants 01:00 UTC on both change days). -/
def parisOffsetInstant (u : Int) : Int :=
  let y := yearOfMinutes u
  if lastSundayOfMarch y * 1440 + 60 ≤ u ∧ u < lastSundayOfOctober y * 1440 + 60
  then 120 else 60

/-- UTC instant of an US/Eastern wall clock (`et.localize(dt)` in the script). -/
def etUtcFromLocal (w : Int) : Int := w - etOffsetLocal w

/-- Paris wall clock of a UTC instant (`dt_et.astimezone(paris)` in the script). -/
def parisWallFromUtc (u : Int) : Int := u + parisOffsetInstant u

/-- UTC instant of a Paris wall clock (`paris.localize(dt)`, reverse direction). -/
def parisUtcFromLocal (w : Int) : Int := w - parisOffsetLocal w

/-- US/Eastern wall clock of a UTC instant (the `astimezone` of the reverse direction). -/
def etWallFromUtc (u : Int) : Int := u + etOffsetInstant u

/-- ET wall clock → Paris wall clock → back to ET wall clock, all at minute
granularity: the round trip of the idempotence property in §8 of the spec. -/
def roundTripMin (w : Int) : Int :=
  etWallFromUtc (parisUtcFromLocal (parisWallFromUtc (etUtcFromLocal w)))

/-! ### `datetime.strptime(date + " " + time, "%Y-%m-%d %H:%M")`

The CPython `_strptime` module compiles the format to a regex:
`%Y ↦ \d\d\d\d`, `%m ↦ 1[0-2]|0[1-9]|[1-9]`, `%d ↦ 3[01]|[12]\d|0[1-9]|[1-9]`,
`%H ↦ 2[0-3]|[0-1]\d|\d`, `%M ↦ [0-5]\d|\d`, a space ↦ `\s+`, other literals
match themselves; the whole input must be consumed, and the resulting fields
must form a valid `datetime` (1 ≤ year, day within the month).  Each function
below consumes one field from the character list; the two-digit/one-digit
alternations are expressed by equivalent numeric conditions on the digit
values (backtracking cannot help, because the follower of every field is a
non-digit literal). -/

/-- Numeric value of a digit character. -/
def digitVal (c : Char) : Nat := c.toNat - 48

/-- Match one literal character. -/
def lit (c : Char) : List Char → Option (List Char)
  | d :: rest => if d = c then some rest else none
  | [] => none

/-- Python regex `\s` (ASCII range). -/
def isPyWs (c : Char) : Bool :=
  c = ' ' || c = '\t' || c = '\n' || c = '\r' || c = '\x0b' || c = '\x0c'

/-- Match `\s+`. -/
def ws1 : List Char → Option (List Char)
  | c :: rest => if isPyWs c then some (rest.dropWhile isPyWs) else none
  | [] => none

/-- `%Y`: exactly four digits. -/
def parseY : List Char → Option (Nat × List Char)
  | c1 :: c2 :: c3 :: c4 :: rest =>
    if c1.isDigit = true ∧ c2.isDigit = true ∧ c3.isDigit = true ∧ c4.isDigit = true then
      some (1000*digitVal c1 + 100*digitVal c2 + 10*digitVal c3 + digitVal c4, rest)
    else none
  | _ => none

/-- `%m`: `1[0-2]|0[1-9]|[1-9]` — a two-digit match is exactly a pair of
digits with value in `[1, 12]`, otherwise a single digit `1`–`9`. -/
def parseM : List Char → Option (Nat × List Char)
  | c1 :: c2 :: rest =>
    if c1.isDigit = true ∧ c2.isDigit = true ∧ 1 ≤ 10*digitVal c1 + digitVal c2 ∧
        10*digitVal c1 + digitVal c2 ≤ 12 then
      some (10*digitVal c1 + digitVal c2, rest)
    else if c1.isDigit = true ∧ 1 ≤ digitVal c1 then some (digitVal c1, c2 :: rest)
    else none
  | [c1] => if c1.isDigit = true ∧ 1 ≤ digitVal c1 then some (digitVal c1, []) else none
  | [] => none

/-- `%d`: `3[01]|[12]\d|0[1-9]|[1-9]` — a two-digit match is exactly a pair of
digits with value in `[1, 31]`, otherwise a single digit `1`–`9`. -/
def parseD : List Char → Option (Nat × List Char)
  | c1 :: c2 :: rest =>
    if c1.isDigit = true ∧ c2.isDigit = true ∧ 1 ≤ 10*digitVal c1 + digitVal c2 ∧
        10*digitVal c1 + digitVal c2 ≤ 31 then
      some (10*digitVal c1 + digitVal c2, rest)
    else if c1.isDigit = true ∧ 1 ≤ digitVal c1 then some (digitVal c1, c2 :: rest)
    else none
  | [c1] => if c1.isDigit = true ∧ 1 ≤ digitVal c1 then some (digitVal c1, []) else none
  | [] => none

/-- `%H`: `2[0-3]|[0-1]\d|\d` — a two-digit match is exactly a pair of digits
with value at most 23, otherwise any single digit. -/
def parseH : List Char → Option (Nat × List Char)
  | c1 :: c2 :: rest =>
    if c1.isDigit = true ∧ c2.isDigit = true ∧ 10*digitVal c1 + digitVal c2 ≤ 23 then
      some (10*digitVal c1 + digitVal c2, rest)
    else if c1.isDigit = true then some (digitVal c1, c2 :: rest)
    else none
  | [c1] => if c1.isDigit = true then some (digitVal c1, []) else none
  | [] => none

/-- `%M`: `[0-5]\d|\d` — a two-digit match is exactly a pair of digits with
value at most 59, otherwise any single digit. -/
def parseMin : List Char → Option (Nat × List Char)
  | c1 :: c2 :: rest =>
    if c1.isDigit = true ∧ c2.isDigit = true ∧ 10*digitVal c1 + digitVal c2 ≤ 59 then
      some (10*digitVal c1 + digitVal c2, rest)
    else if c1.isDigit = true then some (digitVal c1, c2 :: rest)
    else none
  | [c1] => if c1.isDigit = true then some (digitVal c1, []) else none
  | [] => none

/-- `datetime.strptime(s, "%Y-%m-%d %H:%M")`, returning
`(year, month, day, hour, minute)`; `none` models the raised `ValueError`. -/
def parseDT (s : String) : Option (Nat × Nat × Nat × Nat × Nat) :=
  (parseY s.data).bind fun py =>
  (lit '-' py.2).bind fun l2 =>
  (parseM l2).bind fun pm =>
  (lit '-' pm.2).bind fun l4 =>
  (parseD l4).bind fun pd =>
  (ws1 pd.2).bind fun l6 =>
  (parseH l6).bind fun ph =>
  (lit ':' ph.2).bind fun l8 =>
  (parseMin l8).bind fun pn =>
  if pn.2 = [] ∧ 1 ≤ py.1 ∧ (pd.1 : Int) ≤ daysInMonth (py.1 : Int) (pm.1 : Int)
  then some (py.1, pm.1, pd.1, ph.1, pn.1) else none

/-! ### Formatting (`strftime("%Y-%m-%d %H:%M")`) -/

/-- Zero-pad to two digits. -/
def pad2 (n : Nat) : String := if n < 10 then "0" ++ toString n else toString n

/-- Zero-pad to four digits. -/
def pad4 (n : Nat) : String :=
  if n < 10 then "000" ++ toString n
  else if n < 100 then "00" ++ toString n
  else if n < 1000 then "0" ++ toString n
  else toString n

/-- `strftime("%Y-%m-%d %H:%M")` of a wall clock given as minutes since
0001-01-01 00:00. -/
def fmtMinutes (t : Int) : String :=
  let c := civilFromOrdinal (t / 1440)
  let rem := t % 1440
  pad4 c.1.toNat ++ "-" ++ pad2 c.2.1.toNat ++ "-" ++ pad2 c.2.2.toNat ++ " " ++
    pad2 (rem / 60).toNat ++ ":" ++ pad2 (rem % 60).toNat

/-- Minutes since 0001-01-01 00:00 of the wall clock `y-m-d hh:mi`. -/
def localMinutes (y m d hh mi : Nat) : Int :=
  toOrdinal (y : Int) (m : Int) (d : Int) * 1440 + (hh : Int) * 60 + (mi : Int)

/-! ### The Time Converter -/

/-- `convert_et_to_paris(date_str, time_str)` from `nba-bot.py`:
`strptime`, `et.localize`, `astimezone(paris)`, `strftime`.  `none` models the
propagated `ValueError` on unparseable input. -/
def convert_et_to_paris (date_str time_str : String) : Option String :=
  (parseDT (date_str ++ " " ++ time_str)).map fun p =>
    fmtMinutes (parisWallFromUtc (etUtcFromLocal (localMinutes p.1 p.2.1 p.2.2.1 p.2.2.2.1 p.2.2.2.2)))

/-- Modelled from the spec: §4.1 gives the Time Converter a general
`(date, time, sourceZone, destZone)` contract, but the code of the repository only
contains the US/Eastern → Europe/Paris direction; the reverse direction needed
by the round-trip property of §8 is modelled here with the same `pytz`
semantics (`localize(…, is_dst=False)` in the source zone, `astimezone` into
the destination zone) with the zones swapped. -/
def convert_paris_to_et (date_str time_str : String) : Option String :=
  (parseDT (date_str ++ " " ++ time_str)).map fun p =>
    fmtMinutes (etWallFromUtc (parisUtcFromLocal (localMinutes p.1 p.2.1 p.2.2.1 p.2.2.2.1 p.2.2.2.2)))

/-! ### The Schedule Store (`games.db`, table `games`)

A stored row of the `games` table.  `id` is the sqlite
`INTEGER PRIMARY KEY AUTOINCREMENT` surrogate key; `created_at` is a store
default not modelled further.  The `DB` state carries the committed rows and
the next id the autoincrement counter will assign. -/

structure GameRow where
  id : Nat
  date : String
  opponent : String
  home : Bool
  team_rank : Option Int
  opponent_rank : Option Int
  time_et : String
  time_paris : String
  watch : String
  summary : Option String
deriving DecidableEq, Repr

/-- Committed contents of the sqlite database. -/
structure DB where
  rows : List GameRow
  nextId : Nat
deriving DecidableEq, Repr

/-- One element of the JSON array handed to `save_to_db`, viewed as a Python
dict: `none` in a field means the key is absent (`match[k]` raises `KeyError`,
`match.get(k)` yields `None`). -/
structure MatchInput where
  date : Option String
  opponent : Option String
  home : Option Bool
  team_rank : Option Int
  opponent_rank : Option Int
  time_et : Option String
  watch : Option String
  summary : Option String
deriving DecidableEq, Repr

/-- A required lookup: models a Python dict subscript (raising `KeyError`
when the key is absent) and the converter call (raising `ValueError`). -/
def req {α : Type} (o : Option α) (e : String) : Except String α :=
  match o with
  | some a => Except.ok a
  | none => Except.error e

/-- The loop body of `save_to_db` for one match dict:
`convert_et_to_paris(match["date"], match["time_et"])` runs first (raising
`KeyError` on a missing required key or `ValueError` from `strptime`), then
the `INSERT` evaluates the required subscripts `opponent`, `home`, `watch`
and the `.get` lookups of the three optional keys, producing the row the
open transaction receives.  `nid` is the id the autoincrement column will
assign. -/
def saveRow (nid : Nat) (m : MatchInput) : Except String GameRow :=
  (req m.date "KeyError: date").bind fun dt =>
  (req m.time_et "KeyError: time_et").bind fun te =>
  (req (convert_et_to_paris dt te) "ValueError: strptime").bind fun tp =>
  (req m.opponent "KeyError: opponent").bind fun op =>
  (req m.home "KeyError: home").bind fun hm =>
  (req m.watch "KeyError: watch").map fun w =>
  ⟨nid, dt, op, hm, m.team_rank, m.opponent_rank, te, tp, w, m.summary⟩

/-- The `for match in data` loop: rows accumulate in the open transaction
(`acc`); the first exception aborts the whole function before
`conn.commit()` is reached. -/
def saveLoop : List GameRow → Nat → List MatchInput → Except String (List GameRow × Nat)
  | acc, nid, [] => Except.ok (acc, nid)
  | acc, nid, m :: rest =>
    (saveRow nid m).bind fun row => saveLoop (acc ++ [row]) (nid + 1) rest

/-- `save_to_db(data)` from `nba-bot.py`.  The connection commits once, after
the loop; if any record raises, the uncommitted inserts are rolled back when
the unclosed connection is discarded, so the committed state is unchanged.
The result is the committed database together with the propagated exception,
if any. -/
def save_to_db (db : DB) (data : List MatchInput) : DB × Option String :=
  match saveLoop db.rows db.nextId data with
  | Except.ok p => (⟨p.1, p.2⟩, none)
  | Except.error e => (db, some e)

/-- `init_db()` from `nba-bot.py`: `conn = sqlite3.connect(...)`, then
`c.execute(CREATE TABLE IF NOT EXISTS ...)`, `conn.commit()`, `conn.close()`.
The two Booleans say whether the schema-creation statement and the commit
raise (`sqlite3.OperationalError` — an environmental failure).  The result is
the propagated outcome together with whether `conn.close()` was reached:
there is no `try`/`finally` or context manager in the source, so an exception
skips the `close` call. -/
def init_db (executeFails commitFails : Bool) : Except String Unit × Bool :=
  if executeFails then (Except.error "sqlite3.OperationalError", false)
  else if commitFails then (Except.error "sqlite3.OperationalError", false)
  else (Except.ok (), true)

/-! ### The read query of the Notifier

`send_discord_message` runs
`SELECT date, opponent, home, time_paris, watch, summary FROM games ORDER BY date`.
All `date` values written by this program contain a dash, so sqlite stores
them as TEXT and `ORDER BY date` compares them as byte strings; the row
order that the sqlite sorter produces for equal keys (a full table scan feeds
rows in `rowid` order through a stable merge) is modelled by a stable
insertion sort on the `rowid` (= insertion) order. -/

/-- The `ORDER BY date` comparison (ascending, byte-string order on TEXT). -/
def dateLe (a b : GameRow) : Prop := a.date ≤ b.date

instance : DecidableRel dateLe := fun a b => inferInstanceAs (Decidable (a.date ≤ b.date))

instance : IsTotal GameRow dateLe := ⟨fun a b => le_total a.date b.date⟩

instance : IsTrans GameRow dateLe := ⟨fun _ _ _ h1 h2 => le_trans h1 h2⟩

/-- The rows of the table, sorted by the `ORDER BY date` clause. -/
def sortRowsByDate (db : DB) : List GameRow := List.insertionSort dateLe db.rows

/-- The notifier read: the six selected columns of each row, in `ORDER BY
date` order. -/
def listOrderedByDate (db : DB) :
    List (String × String × Bool × String × String × Option String) :=
  (sortRowsByDate db).map fun r => (r.date, r.opponent, r.home, r.time_paris, r.watch, r.summary)

/-! ### The Schedule Fetcher

`fetch_cavs_schedule` computes the week window from `datetime.today()`,
prompts the model, optionally runs the search agent (result only printed,
exceptions caught and printed), then issues the direct completion request and
parses its text strictly as JSON, returning `[]` on `json.JSONDecodeError`. -/

/-- `next_sunday = today + timedelta(days=(6 - today.weekday()))`,
on ordinals. -/
def nextSunday (today : Int) : Int := today + (6 - pyWeekday today)

/-- `end_of_week = next_sunday + timedelta(days=6)`, on ordinals. -/
def endOfWeek (today : Int) : Int := nextSunday today + 6

/-- A Python value decoded by `json.loads`.  Numeric literals keep their raw
lexeme (the script never inspects them before handing them to sqlite). -/
inductive Json where
  | jnull : Json
  | jbool : Bool → Json
  | jnum : String → Json
  | jstr : String → Json
  | arr : List Json → Json
  | obj : List (String × Json) → Json

/-- JSON whitespace (`json.loads` skips exactly space, tab, newline, return). -/
def isJsonWs (c : Char) : Bool := c = ' ' || c = '\t' || c = '\n' || c = '\r'

/-- Skip JSON whitespace. -/
def jws (l : List Char) : List Char := l.dropWhile isJsonWs

/-- Hexadecimal digit test for `\uXXXX` escapes. -/
def isHexDigit (c : Char) : Bool :=
  c.isDigit || ('a' ≤ c && c ≤ 'f') || ('A' ≤ c && c ≤ 'F')

/-- Body of a JSON string after the opening quote, in strict mode: raw control
characters are rejected, escapes are limited to `"\/bfnrt` and `\uXXXX`.
Returns the collected characters (escapes kept raw — the script never uses
decoded strings before storage) and the input after the closing quote. -/
def parseJStr (fuel : Nat) (l : List Char) : Option (List Char × List Char) :=
  match fuel, l with
  | 0, _ => none
  | _, [] => none
  | fuel + 1, c :: rest =>
    if c = '"' then some ([], rest)
    else if c = '\\' then
      match rest with
      | [] => none
      | e :: rest2 =>
        if e = '"' ∨ e = '\\' ∨ e = '/' ∨ e = 'b' ∨ e = 'f' ∨ e = 'n' ∨ e = 'r' ∨ e = 't' then
          (parseJStr fuel rest2).map fun p => (c :: e :: p.1, p.2)
        else if e = 'u' then
          match rest2 with
          | h1 :: h2 :: h3 :: h4 :: rest3 =>
            if isHexDigit h1 ∧ isHexDigit h2 ∧ isHexDigit h3 ∧ isHexDigit h4 then
              (parseJStr fuel rest3).map fun p => (c :: e :: h1 :: h2 :: h3 :: h4 :: p.1, p.2)
            else none
          | _ => none
        else none
    else if c.toNat < 32 then none
    else (parseJStr fuel rest).map fun p => (c :: p.1, p.2)

/-- The integer part of a JSON number: `0` or `[1-9][0-9]*`. -/
def parseJInt (l : List Char) : Option (List Char × List Char) :=
  match l with
  | [] => none
  | c :: rest =>
    if c = '0' then some ([c], rest)
    else if c.isDigit then some (c :: rest.takeWhile Char.isDigit, rest.dropWhile Char.isDigit)
    else none

/-- Optional fraction part `\.[0-9]+` (consumed only when fully present). -/
def parseJFrac (l : List Char) : List Char × List Char :=
  match l with
  | '.' :: c :: rest =>
    if c.isDigit then ('.' :: c :: rest.takeWhile Char.isDigit, rest.dropWhile Char.isDigit)
    else ([], l)
  | _ => ([], l)

/-- Optional exponent part `[eE][+-]?[0-9]+` (consumed only when fully
present). -/
def parseJExp (l : List Char) : List Char × List Char :=
  match l with
  | e :: '+' :: c :: rest =>
    if (e = 'e' ∨ e = 'E') ∧ c.isDigit = true then
      (e :: '+' :: c :: rest.takeWhile Char.isDigit, rest.dropWhile Char.isDigit)
    else ([], l)
  | e :: '-' :: c :: rest =>
    if (e = 'e' ∨ e = 'E') ∧ c.isDigit = true then
      (e :: '-' :: c :: rest.takeWhile Char.isDigit, rest.dropWhile Char.isDigit)
    else ([], l)
  | e :: c :: rest =>
    if (e = 'e' ∨ e = 'E') ∧ c.isDigit = true then
      (e :: c :: rest.takeWhile Char.isDigit, rest.dropWhile Char.isDigit)
    else ([], l)
  | _ => ([], l)

/-- A JSON number starting at `l` (after an optional leading `-` already
checked by the caller): `NUMBER_RE` of the Python `json` module. -/
def parseJNum (neg : Bool) (l : List Char) : Option (String × List Char) :=
  (parseJInt l).bind fun pi2 =>
  let pf := parseJFrac pi2.2
  let pe := parseJExp pf.2
  some (String.mk ((if neg then ['-'] else []) ++ pi2.1 ++ pf.1 ++ pe.1), pe.2)

mutual

/-- One JSON value, per the strict `json.loads` grammar, plus the constants
`NaN`, `Infinity` and `-Infinity` that the default `parse_constant` accepts. -/
def parseJValue (fuel : Nat) (l : List Char) : Option (Json × List Char) :=
  match fuel with
  | 0 => none
  | fuel + 1 =>
    match l with
    | [] => none
    | c :: rest =>
      if c = '{' then parseJMembers fuel (jws rest) true
      else if c = '[' then parseJElems fuel (jws rest) true
      else if c = '"' then (parseJStr fuel rest).map fun p => (Json.jstr (String.mk p.1), p.2)
      else if c = 't' then
        match rest with
        | 'r' :: 'u' :: 'e' :: rest2 => some (Json.jbool true, rest2)
        | _ => none
      else if c = 'f' then
        match rest with
        | 'a' :: 'l' :: 's' :: 'e' :: rest2 => some (Json.jbool false, rest2)
        | _ => none
      else if c = 'n' then
        match rest with
        | 'u' :: 'l' :: 'l' :: rest2 => some (Json.jnull, rest2)
        | _ => none
      else if c = 'N' then
        match rest with
        | 'a' :: 'N' :: rest2 => some (Json.jnum "NaN", rest2)
        | _ => none
      else if c = 'I' then
        match rest with
        | 'n' :: 'f' :: 'i' :: 'n' :: 'i' :: 't' :: 'y' :: rest2 =>
          some (Json.jnum "Infinity", rest2)
        | _ => none
      else if c = '-' then
        match rest with
        | 'I' :: 'n' :: 'f' :: 'i' :: 'n' :: 'i' :: 't' :: 'y' :: rest2 =>
          some (Json.jnum "-Infinity", rest2)
        | _ => (parseJNum true rest).map fun p => (Json.jnum p.1, p.2)
      else if c.isDigit then (parseJNum false l).map fun p => (Json.jnum p.1, p.2)
      else none

/-- Members of a JSON object after the opening `{` (whitespace already
skipped); `first` is true before the first member. -/
def parseJMembers (fuel : Nat) (l : List Char) (first : Bool) : Option (Json × List Char) :=
  match fuel with
  | 0 => none
  | fuel + 1 =>
    match l with
    | '}' :: rest => if first then some (Json.obj [], rest) else none
    | _ => (parseJMemberList fuel l).map fun p => (Json.obj p.1, p.2)

/-- Non-empty member list `string : value (, string : value)* }`. -/
def parseJMemberList (fuel : Nat) (l : List Char) :
    Option (List (String × Json) × List Char) :=
  match fuel with
  | 0 => none
  | fuel + 1 =>
    match l with
    | '"' :: rest =>
      (parseJStr fuel rest).bind fun pk =>
      match jws pk.2 with
      | ':' :: rest2 =>
        (parseJValue fuel (jws rest2)).bind fun pv =>
        match jws pv.2 with
        | ',' :: rest3 =>
          (parseJMemberList fuel (jws rest3)).map fun pm =>
            ((String.mk pk.1, pv.1) :: pm.1, pm.2)
        | '}' :: rest3 => some ([(String.mk pk.1, pv.1)], rest3)
        | _ => none
      | _ => none
    | _ => none

/-- Elements of a JSON array after the opening `[` (whitespace already
skipped); `first` is true before the first element. -/
def parseJElems (fuel : Nat) (l : List Char) (first : Bool) : Option (Json × List Char) :=
  match fuel with
  | 0 => none
  | fuel + 1 =>
    match l with
    | ']' :: rest => if first then some (Json.arr [], rest) else none
    | _ => (parseJElemList fuel l).map fun p => (Json.arr p.1, p.2)

/-- Non-empty element list `value (, value)* ]`. -/
def parseJElemList (fuel : Nat) (l : List Char) : Option (List Json × List Char) :=
  match fuel with
  | 0 => none
  | fuel + 1 =>
    (parseJValue fuel l).bind fun pv =>
    match jws pv.2 with
    | ',' :: rest => (parseJElemList fuel (jws rest)).map fun pe => (pv.1 :: pe.1, pe.2)
    | ']' :: rest => some ([pv.1], rest)
    | _ => none

end

/-- `json.loads`: parse one JSON document, requiring the whole text to be
consumed; `none` models the raised `json.JSONDecodeError`. -/
def jsonLoads (s : String) : Option Json :=
  match parseJValue (2 * s.length + 4) (jws s.data) with
  | some p => if jws p.2 = [] then some p.1 else none
  | none => none

/-- The parse step at the end of `fetch_cavs_schedule`:
`try: return json.loads(json_output) except json.JSONDecodeError: print(...); return []`.
The result is always `Except.ok` — the decode error is swallowed and an empty
Python list is returned in its place. -/
def fetchParseStep (json_output : String) : Except String Json :=
  match jsonLoads json_output with
  | some data => Except.ok data
  | none => Except.ok (Json.arr [])

/-- `fetch_cavs_schedule`, parametrised by its two external interactions: the
outcome of `react_agent.run(prompt)` (a result string, or a raised exception
caught by the bare `except Exception` and printed) and the text content of
the direct chat-completion response.  The first component collects what the
agent block prints; only the second component — the parsed completion — is
returned to the caller and fed to `save_to_db`. -/
def fetch_cavs_schedule (agent_result : Except String String)
    (completion_text : String) : List String × Except String Json :=
  (match agent_result with
   | Except.ok r => ["Final Result: " ++ r]
   | Except.error e => ["An error occurred: " ++ e],
   fetchParseStep completion_text)

/-! ## Claims -/

/-- C1, counterexample.  The round trip is NOT the identity on every valid
input: the valid, unambiguous US/Eastern wall clock 2024-10-26 20:30 converts
to Paris 2024-10-27 02:30, which falls in the Paris fall-back hour (Europe
leaves DST on 2024-10-27, a week before the US does), and converting back
yields 2024-10-26 21:30, one hour late. -/
theorem c1_round_trip_cex :
    convert_et_to_paris "2024-10-26" "20:30" = some "2024-10-27 02:30" ∧
    convert_paris_to_et "2024-10-27" "02:30" = some "2024-10-26 21:30" ∧
    ("2024-10-26 21:30" : String) ≠ "2024-10-26 20:30" := by
  refine ⟨by decide, by decide, by decide⟩

/-- C1, amended.  The converter is a pure function, so it is deterministic,
and the ET → Paris → ET round trip recovers the original wall clock whenever
(i) the original ET wall clock resolves consistently (it is not in the US
spring-forward gap, where localize with is_dst=False picks an offset that
disagrees with the instant), and (ii) the intermediate Paris wall clock
resolves back to the same UTC instant (it is not in the Paris fall-back
ambiguity or spring-forward gap window). -/
theorem c1_round_trip_amended (w : Int)
    (h1 : etOffsetInstant (etUtcFromLocal w) = etOffsetLocal w)
    (h2 : parisUtcFromLocal (parisWallFromUtc (etUtcFromLocal w)) = etUtcFromLocal w) :
    roundTripMin w = w := by
  unfold roundTripMin etWallFromUtc
  rw [h2, h1]
  unfold etUtcFromLocal
  omega

/-- C1, amended, witness at 2024-03-10 19:30 — the US spring-forward date
used by the spec end-to-end scenario. -/
theorem c1_round_trip_amended_witness :
    roundTripMin (localMinutes 2024 3 10 19 30) = localMinutes 2024 3 10 19 30 :=
  c1_round_trip_amended (localMinutes 2024 3 10 19 30) (by decide) (by decide)

/-- C2: the fetcher week window.  `nextSunday today` is the first Sunday on
or after `today` (equal to `today` when `today` is a Sunday), and
`endOfWeek` is exactly six days later. -/
theorem c2_week_window (today : Int) :
    today ≤ nextSunday today ∧
    pyWeekday (nextSunday today) = 6 ∧
    (∀ d : Int, today ≤ d → d < nextSunday today → pyWeekday d ≠ 6) ∧
    (pyWeekday today = 6 → nextSunday today = today) ∧
    endOfWeek today = nextSunday today + 6 := by
  unfold nextSunday endOfWeek pyWeekday
  refine ⟨by omega, by omega, ?_, by omega, rfl⟩
  intro d h1 h2
  omega

/-- C2, witness: 739000 is a Wednesday, 739004 the following Sunday. -/
theorem c2_week_window_witness :
    (739000 : Int) ≤ nextSunday 739000 ∧ pyWeekday (nextSunday 739000) = 6 ∧
    pyWeekday 739001 ≠ 6 ∧ nextSunday 739004 = 739004 ∧
    endOfWeek 739000 = nextSunday 739000 + 6 := by
  obtain ⟨h1, h2, h3, _, h5⟩ := c2_week_window 739000
  obtain ⟨_, _, _, h4, _⟩ := c2_week_window 739004
  exact ⟨h1, h2, h3 739001 (by decide) (by decide), h4 (by decide), h5⟩

/-- C3: when the completion text is not valid JSON, the parse step of the
fetcher returns an empty sequence and raises nothing — the decode error is
swallowed. -/
theorem c3_parse_failure_swallowed (s : String) (h : jsonLoads s = none) :
    fetchParseStep s = Except.ok (Json.arr []) := by
  unfold fetchParseStep
  rw [h]

/-- C3, witness on a concrete non-JSON reply. -/
theorem c3_parse_failure_swallowed_witness :
    jsonLoads "Voici le programme de la semaine" = none ∧
    fetchParseStep "Voici le programme de la semaine" = Except.ok (Json.arr []) := by
  have h : jsonLoads "Voici le programme de la semaine" = none := by rfl
  exact ⟨h, c3_parse_failure_swallowed _ h⟩

/-- C7: the records the fetcher returns are a function of the direct
completion text alone — the search agent outcome (success with any text, or
a raised exception) only changes what is printed, never the returned value. -/
theorem c7_agent_no_influence (a1 a2 : Except String String) (c : String) :
    (fetch_cavs_schedule a1 c).2 = (fetch_cavs_schedule a2 c).2 := rfl

/-- C9, counterexample.  When the schema-creation statement raises, init_db
propagates the exception without reaching conn.close: the storage handle is
left open on that exit path, so release is NOT guaranteed on all exits. -/
theorem c9_handle_leak_cex :
    (init_db true false).1 = Except.error "sqlite3.OperationalError" ∧
    (init_db true false).2 = false := ⟨rfl, rfl⟩

/-- C9, amended: the connection is closed exactly on the success path; every
failing exit (schema creation or commit raising) propagates the exception
with the handle still open. -/
theorem c9_close_iff_success (e c : Bool) :
    ((init_db e c).2 = true ↔ e = false ∧ c = false) ∧
    ((init_db e c).1 = Except.ok () ↔ e = false ∧ c = false) := by
  cases e <;> cases c <;> simp [init_db]

/-- A record whose watch value is outside the {full, condensed} enumeration. -/
def badWatchInput : MatchInput :=
  ⟨some "2025-01-15", some "Lakers", some true, none, none, some "19:00", some "neither", none⟩

/-- The row `save_to_db` commits for `badWatchInput` on an empty database. -/
def badWatchRow : GameRow :=
  ⟨1, "2025-01-15", "Lakers", true, none, none, "19:00", "2025-01-16 01:00", "neither", none⟩

/-- C5, counterexample.  `save_to_db` performs no validation of the watch
field: a record whose watch value is the string "neither" — outside the
{full, condensed} enumeration — is committed without error, so the store does
hold a row with a non-enumerated watch value. -/
theorem c5_watch_not_validated_cex :
    (save_to_db ⟨[], 1⟩ [badWatchInput]).2 = none ∧
    badWatchRow ∈ (save_to_db ⟨[], 1⟩ [badWatchInput]).1.rows ∧
    badWatchRow.watch ≠ "full" ∧ badWatchRow.watch ≠ "condensed" := by
  refine ⟨by decide, by decide, by decide, by decide⟩

/-- A successful row build copies the watch value of its input verbatim. -/
theorem saveRow_watch_eq (nid : Nat) (m : MatchInput) (row : GameRow)
    (h : saveRow nid m = Except.ok row) : m.watch = some row.watch := by
  unfold saveRow at h
  rcases hd : m.date with _ | dt
  · simp [hd, req, Except.bind] at h
  rcases ht : m.time_et with _ | te
  · simp [hd, ht, req, Except.bind] at h
  rcases hc : convert_et_to_paris dt te with _ | tp
  · simp [hd, ht, hc, req, Except.bind] at h
  rcases ho : m.opponent with _ | op
  · simp [hd, ht, hc, ho, req, Except.bind] at h
  rcases hh : m.home with _ | hm
  · simp [hd, ht, hc, ho, hh, req, Except.bind] at h
  rcases hw : m.watch with _ | w
  · simp [hd, ht, hc, ho, hh, hw, req, Except.bind, Except.map] at h
  simp only [hd, ht, hc, ho, hh, hw, req, Except.bind, Except.map] at h
  injection h with h2
  subst h2
  rfl

/-- C5, amended: ingestion stores the watch value verbatim — every row a
successful `save_to_db` run adds carries exactly the watch string of one of
its input records, with no rejection, filtering or normalisation. -/
theorem c5_watch_stored_verbatim (db : DB) (data : List MatchInput) (db2 : DB)
    (h : save_to_db db data = (db2, none)) :
    ∀ r ∈ db2.rows, r ∈ db.rows ∨ ∃ m ∈ data, m.watch = some r.watch := by
  have key : ∀ (data : List MatchInput) (acc : List GameRow) (nid : Nat)
      (out : List GameRow × Nat), saveLoop acc nid data = Except.ok out →
      ∀ r ∈ out.1, r ∈ acc ∨ ∃ m ∈ data, m.watch = some r.watch := by
    intro data
    induction data with
    | nil =>
      intro acc nid out h r hr
      rw [saveLoop] at h
      cases h
      exact Or.inl hr
    | cons m rest ih =>
      intro acc nid out h r hr
      rw [saveLoop] at h
      rcases hrow : saveRow nid m with e | row <;> rw [hrow] at h
      · simp [Except.bind] at h
      simp only [Except.bind] at h
      rcases ih (acc ++ [row]) (nid + 1) out h r hr with hacc | ⟨m2, hm2, hw2⟩
      · rcases List.mem_append.mp hacc with hl | hr2
        · exact Or.inl hl
        · refine Or.inr ⟨m, List.mem_cons_self m rest, ?_⟩
          rw [List.mem_singleton.mp hr2]
          exact saveRow_watch_eq nid m row hrow
      · exact Or.inr ⟨m2, List.mem_cons_of_mem m hm2, hw2⟩
  intro r hr
  unfold save_to_db at h
  rcases hs : saveLoop db.rows db.nextId data with e | p <;> rw [hs] at h
  · cases h
  · cases h
    exact key data db.rows db.nextId p hs r hr

/-- C5, amended, witness. -/
theorem c5_watch_stored_verbatim_witness :
    badWatchRow ∈ (DB.mk [] 1).rows ∨
    ∃ m ∈ [badWatchInput], m.watch = some badWatchRow.watch :=
  c5_watch_stored_verbatim (DB.mk [] 1) [badWatchInput] (DB.mk [badWatchRow] 2)
    (by decide) badWatchRow (by decide)

/-- C6: a record missing the optional keys team_rank, opponent_rank and
summary is persisted with those columns NULL, and the committed row — read
back from the store — carries exactly the ingested values, the missing
optional fields still absent. -/
theorem c6_optional_fields_roundtrip (db : DB) (m : MatchInput)
    (dt te tp op w : String) (hm : Bool)
    (h1 : m.date = some dt) (h2 : m.time_et = some te)
    (h3 : convert_et_to_paris dt te = some tp)
    (h4 : m.opponent = some op) (h5 : m.home = some hm) (h6 : m.watch = some w)
    (h7 : m.team_rank = none) (h8 : m.opponent_rank = none) (h9 : m.summary = none) :
    save_to_db db [m] =
      (⟨db.rows ++ [⟨db.nextId, dt, op, hm, none, none, te, tp, w, none⟩], db.nextId + 1⟩,
        none) ∧
    (⟨db.nextId, dt, op, hm, none, none, te, tp, w, none⟩ : GameRow) ∈
      (save_to_db db [m]).1.rows := by
  have hrow : saveRow db.nextId m =
      Except.ok ⟨db.nextId, dt, op, hm, none, none, te, tp, w, none⟩ := by
    unfold saveRow
    simp only [h1, h2, h3, h4, h5, h6, req, Except.bind, Except.map]
    rw [h7, h8, h9]
  have hrun : save_to_db db [m] =
      (⟨db.rows ++ [⟨db.nextId, dt, op, hm, none, none, te, tp, w, none⟩], db.nextId + 1⟩,
        none) := by
    unfold save_to_db
    rw [saveLoop, hrow]
    simp only [Except.bind]
    rw [saveLoop]
  refine ⟨hrun, ?_⟩
  rw [hrun]
  exact List.mem_append_right _ (List.mem_singleton.mpr rfl)

/-- C6, witness: a concrete record with all three optional keys absent. -/
theorem c6_optional_fields_roundtrip_witness :
    save_to_db (DB.mk [] 1)
        [⟨some "2025-02-01", some "Knicks", some false, none, none, some "20:00",
          some "full", none⟩] =
      (⟨[⟨1, "2025-02-01", "Knicks", false, none, none, "20:00", "2025-02-02 02:00",
          "full", none⟩], 2⟩, none) ∧
    (⟨1, "2025-02-01", "Knicks", false, none, none, "20:00", "2025-02-02 02:00",
      "full", none⟩ : GameRow) ∈
      (save_to_db (DB.mk [] 1)
        [⟨some "2025-02-01", some "Knicks", some false, none, none, some "20:00",
          some "full", none⟩]).1.rows :=
  c6_optional_fields_roundtrip (DB.mk [] 1) _ "2025-02-01" "20:00" "2025-02-02 02:00"
    "Knicks" "full" false rfl rfl (by decide) rfl rfl rfl rfl rfl rfl

/-- A batch record is malformed when a required key is absent (`KeyError`) or
its date/time pair makes the converter raise (`ValueError`). -/
def malformedInput (m : MatchInput) : Prop :=
  m.date = none ∨ m.time_et = none ∨ m.opponent = none ∨ m.home = none ∨ m.watch = none ∨
  ∃ dt te, m.date = some dt ∧ m.time_et = some te ∧ convert_et_to_paris dt te = none

/-- A malformed input makes the row build raise. -/
theorem saveRow_error_of_malformed (nid : Nat) (m : MatchInput) (h : malformedInput m) :
    ∃ e, saveRow nid m = Except.error e := by
  unfold saveRow
  rcases hd : m.date with _ | dt
  · exact ⟨"KeyError: date", by simp [hd, req, Except.bind]⟩
  rcases ht : m.time_et with _ | te
  · exact ⟨"KeyError: time_et", by simp [hd, ht, req, Except.bind]⟩
  rcases hc : convert_et_to_paris dt te with _ | tp
  · exact ⟨"ValueError: strptime", by simp [hd, ht, hc, req, Except.bind]⟩
  rcases ho : m.opponent with _ | op
  · exact ⟨"KeyError: opponent", by simp [hd, ht, hc, ho, req, Except.bind]⟩
  rcases hh : m.home with _ | hm
  · exact ⟨"KeyError: home", by simp [hd, ht, hc, ho, hh, req, Except.bind]⟩
  rcases hw : m.watch with _ | w
  · exact ⟨"KeyError: watch", by simp [hd, ht, hc, ho, hh, hw, req, Except.bind, Except.map]⟩
  exfalso
  rcases h with h | h | h | h | h | ⟨dt2, te2, hd2, ht2, hc2⟩
  · rw [hd] at h; cases h
  · rw [ht] at h; cases h
  · rw [ho] at h; cases h
  · rw [hh] at h; cases h
  · rw [hw] at h; cases h
  · rw [hd] at hd2
    rw [ht] at ht2
    injection hd2 with e1
    injection ht2 with e2
    subst e1
    subst e2
    rw [hc] at hc2
    cases hc2

/-- The insertion loop raises on any batch containing a malformed record. -/
theorem saveLoop_error_of_malformed (data : List MatchInput)
    (h : ∃ m ∈ data, malformedInput m) :
    ∀ (acc : List GameRow) (nid : Nat), ∃ e, saveLoop acc nid data = Except.error e := by
  induction data with
  | nil => simp at h
  | cons m rest ih =>
    intro acc nid
    rcases hrow : saveRow nid m with e | row
    · exact ⟨e, by rw [saveLoop, hrow]; simp [Except.bind]⟩
    · rcases h with ⟨m2, hm2, hmal⟩
      rcases List.mem_cons.mp hm2 with rfl | hm2
      · obtain ⟨e, he⟩ := saveRow_error_of_malformed nid m2 hmal
        rw [hrow] at he
        cases he
      · obtain ⟨e, he⟩ := ih ⟨m2, hm2, hmal⟩ (acc ++ [row]) (nid + 1)
        refine ⟨e, ?_⟩
        rw [saveLoop, hrow]
        simpa [Except.bind] using he

/-- C10: batch insertion is all-or-nothing.  If any record of the batch is
malformed, `save_to_db` propagates an exception and the committed database is
exactly the one it started from — the single commit after the loop is never
reached, so no record of the batch is persisted. -/
theorem c10_batch_all_or_nothing (db : DB) (data : List MatchInput)
    (h : ∃ m ∈ data, malformedInput m) :
    (save_to_db db data).1 = db ∧ (save_to_db db data).2.isSome = true := by
  obtain ⟨e, he⟩ := saveLoop_error_of_malformed data h db.rows db.nextId
  unfold save_to_db
  rw [he]
  exact ⟨rfl, rfl⟩

/-- C10, witness: a batch of one well-formed record followed by one missing
the watch key commits nothing. -/
theorem c10_batch_all_or_nothing_witness :
    (save_to_db (DB.mk [] 1)
        [⟨some "2025-02-01", some "Knicks", some false, none, none, some "20:00",
          some "full", none⟩,
         ⟨some "2025-02-02", some "Bulls", some true, none, none, some "19:00",
          none, none⟩]).1 = DB.mk [] 1 ∧
    (save_to_db (DB.mk [] 1)
        [⟨some "2025-02-01", some "Knicks", some false, none, none, some "20:00",
          some "full", none⟩,
         ⟨some "2025-02-02", some "Bulls", some true, none, none, some "19:00",
          none, none⟩]).2.isSome = true :=
  c10_batch_all_or_nothing (DB.mk [] 1) _
    ⟨⟨some "2025-02-02", some "Bulls", some true, none, none, some "19:00", none, none⟩,
      by decide, Or.inr (Or.inr (Or.inr (Or.inr (Or.inl rfl))))⟩

/-- Rows with equal dates appear in ascending id (= insertion) order. -/
def tieBreak (a b : GameRow) : Prop := a.date = b.date → a.id < b.id

/-- Inserting a row whose id is below every id of a `tieBreak`-pairwise list
preserves the property: the insertion point sits before every row of equal
date, and rows passed over have strictly smaller dates. -/
theorem pairwise_orderedInsert_tieBreak (a : GameRow) (l : List GameRow)
    (hl : l.Pairwise tieBreak) (ha : ∀ b ∈ l, a.id < b.id) :
    (List.orderedInsert dateLe a l).Pairwise tieBreak := by
  induction l with
  | nil => simp [List.orderedInsert]
  | cons b l ih =>
    rw [List.orderedInsert]
    split
    · refine List.pairwise_cons.mpr ⟨?_, hl⟩
      intro c hc
      exact fun _ => ha c hc
    · rename_i hnab
      refine List.pairwise_cons.mpr ⟨?_, ?_⟩
      · intro c hc
        rcases (List.mem_orderedInsert dateLe).mp hc with rfl | hc2
        · intro hdate
          exact absurd (le_of_eq hdate.symm) hnab
        · exact (List.pairwise_cons.mp hl).1 c hc2
      · exact ih (List.pairwise_cons.mp hl).2 fun c hc => ha c (List.mem_cons_of_mem b hc)

/-- Stability of the modelled sort: ascending ids in the stored order yield
ascending ids among equal dates in the sorted order. -/
theorem pairwise_insertionSort_tieBreak (l : List GameRow)
    (h : l.Pairwise fun a b => a.id < b.id) :
    (List.insertionSort dateLe l).Pairwise tieBreak := by
  induction l with
  | nil => simp [List.insertionSort]
  | cons a l ih =>
    rw [List.insertionSort]
    refine pairwise_orderedInsert_tieBreak a _ (ih (List.pairwise_cons.mp h).2) ?_
    intro b hb
    exact (List.pairwise_cons.mp h).1 b ((List.mem_insertionSort dateLe).mp hb)

/-- C4: the notifier read returns all rows (a permutation of the table),
sorted ascending by date; under the autoincrement invariant (ids ascending in
insertion order) rows with equal dates keep ascending id order; and
`listOrderedByDate` is exactly the six selected columns of that ordering. -/
theorem c4_listOrderedByDate_sorted (db : DB) :
    (sortRowsByDate db).Perm db.rows ∧
    List.Sorted dateLe (sortRowsByDate db) ∧
    (db.rows.Pairwise (fun a b => a.id < b.id) → (sortRowsByDate db).Pairwise tieBreak) ∧
    listOrderedByDate db = (sortRowsByDate db).map
      (fun r => (r.date, r.opponent, r.home, r.time_paris, r.watch, r.summary)) :=
  ⟨List.perm_insertionSort dateLe db.rows, List.sorted_insertionSort dateLe db.rows,
    fun h => pairwise_insertionSort_tieBreak db.rows h, rfl⟩

/-- A store state with two rows of equal date inserted in id order. -/
def dbC4 : DB :=
  ⟨[⟨1, "2025-01-16", "B", false, none, none, "19:00", "2025-01-17 01:00", "full", none⟩,
    ⟨2, "2025-01-15", "A", true, none, none, "19:00", "2025-01-16 01:00", "condensed", none⟩,
    ⟨3, "2025-01-15", "C", true, none, none, "20:00", "2025-01-16 02:00", "full", none⟩], 4⟩

/-- C4, witness: the tie-break conclusion at a concrete store state. -/
theorem c4_listOrderedByDate_sorted_witness : (sortRowsByDate dbC4).Pairwise tieBreak :=
  (c4_listOrderedByDate_sorted dbC4).2.2.1 (by decide)

/-- The input constraint of the spec, §4.1: the date is strict YYYY-MM-DD —
four digits, dash, two digits, dash, two digits, year at least 1, month in
1..12, day within the month. -/
def isStrictDate (s : String) : Bool :=
  match s.data with
  | [y1, y2, y3, y4, a, m1, m2, b, d1, d2] =>
    y1.isDigit && y2.isDigit && y3.isDigit && y4.isDigit && a == '-' &&
    m1.isDigit && m2.isDigit && b == '-' && d1.isDigit && d2.isDigit &&
    decide (1 ≤ 1000*digitVal y1 + 100*digitVal y2 + 10*digitVal y3 + digitVal y4) &&
    decide (1 ≤ 10*digitVal m1 + digitVal m2) &&
    decide (10*digitVal m1 + digitVal m2 ≤ 12) &&
    decide (1 ≤ 10*digitVal d1 + digitVal d2) &&
    decide (((10*digitVal d1 + digitVal d2 : Nat) : Int) ≤
      daysInMonth
        ((1000*digitVal y1 + 100*digitVal y2 + 10*digitVal y3 + digitVal y4 : Nat) : Int)
        ((10*digitVal m1 + digitVal m2 : Nat) : Int))
  | _ => false

/-- The input constraint of the spec, §4.1: the time is strict 24-hour HH:MM —
two digits, colon, two digits, hour at most 23, minute at most 59. -/
def isStrictTime (s : String) : Bool :=
  match s.data with
  | [h1, h2, c, n1, n2] =>
    h1.isDigit && h2.isDigit && c == ':' && n1.isDigit && n2.isDigit &&
    decide (10*digitVal h1 + digitVal h2 ≤ 23) &&
    decide (10*digitVal n1 + digitVal n2 ≤ 59)
  | _ => false

/-- C8, counterexample.  The converter does not fail exactly outside the
strict YYYY-MM-DD/HH:MM formats: strptime is lenient about zero padding, so
the non-strict date 2024-3-5 is accepted and converted rather than raising. -/
theorem c8_error_set_cex :
    isStrictDate "2024-3-5" = false ∧
    convert_et_to_paris "2024-3-5" "19:30" = some "2024-03-06 01:30" := by
  refine ⟨by decide, by decide⟩

/-- A digit character has code point between 48 and 57. -/
theorem digit_toNat_bounds (c : Char) (h : c.isDigit = true) :
    48 ≤ c.toNat ∧ c.toNat ≤ 57 := by
  simp only [Char.isDigit, ge_iff_le, Bool.and_eq_true, decide_eq_true_eq, UInt32.le_def,
    BitVec.le_def] at h
  exact h

/-- A digit is not regex whitespace. -/
theorem isPyWs_eq_false_of_digit (c : Char) (h : c.isDigit = true) : isPyWs c = false := by
  obtain ⟨h1, _⟩ := digit_toNat_bounds c h
  apply Bool.eq_false_iff.mpr
  intro hw
  simp only [isPyWs, Bool.or_eq_true, decide_eq_true_eq, or_assoc] at hw
  rcases hw with rfl | rfl | rfl | rfl | rfl | rfl <;> exact absurd h (by decide)

/-- Four digits parse as `%Y`. -/
theorem parseY_digits (c1 c2 c3 c4 : Char) (rest : List Char)
    (h1 : c1.isDigit = true) (h2 : c2.isDigit = true) (h3 : c3.isDigit = true)
    (h4 : c4.isDigit = true) :
    parseY (c1 :: c2 :: c3 :: c4 :: rest) =
      some (1000*digitVal c1 + 100*digitVal c2 + 10*digitVal c3 + digitVal c4, rest) := by
  simp [parseY, h1, h2, h3, h4]

/-- A strict two-digit month parses as `%m` in one two-digit step. -/
theorem parseM_two (c1 c2 : Char) (rest : List Char)
    (h1 : c1.isDigit = true) (h2 : c2.isDigit = true)
    (h3 : 1 ≤ 10*digitVal c1 + digitVal c2) (h4 : 10*digitVal c1 + digitVal c2 ≤ 12) :
    parseM (c1 :: c2 :: rest) = some (10*digitVal c1 + digitVal c2, rest) := by
  simp [parseM, h1, h2, h3, h4]

/-- A strict two-digit day parses as `%d` in one two-digit step. -/
theorem parseD_two (c1 c2 : Char) (rest : List Char)
    (h1 : c1.isDigit = true) (h2 : c2.isDigit = true)
    (h3 : 1 ≤ 10*digitVal c1 + digitVal c2) (h4 : 10*digitVal c1 + digitVal c2 ≤ 31) :
    parseD (c1 :: c2 :: rest) = some (10*digitVal c1 + digitVal c2, rest) := by
  simp [parseD, h1, h2, h3, h4]

/-- A strict two-digit hour parses as `%H` in one two-digit step. -/
theorem parseH_two (c1 c2 : Char) (rest : List Char)
    (h1 : c1.isDigit = true) (h2 : c2.isDigit = true)
    (h3 : 10*digitVal c1 + digitVal c2 ≤ 23) :
    parseH (c1 :: c2 :: rest) = some (10*digitVal c1 + digitVal c2, rest) := by
  simp [parseH, h1, h2, h3]

/-- A strict two-digit minute parses as `%M` in one two-digit step. -/
theorem parseMin_two (c1 c2 : Char) (rest : List Char)
    (h1 : c1.isDigit = true) (h2 : c2.isDigit = true)
    (h3 : 10*digitVal c1 + digitVal c2 ≤ 59) :
    parseMin (c1 :: c2 :: rest) = some (10*digitVal c1 + digitVal c2, rest) := by
  simp [parseMin, h1, h2, h3]

/-- A matching literal is consumed. -/
theorem lit_cons (c : Char) (rest : List Char) : lit c (c :: rest) = some rest := by
  simp [lit]

/-- The single separating space, followed by a digit, matches the whitespace
run of the format with nothing further consumed. -/
theorem ws1_space_digit (c : Char) (t : List Char) (hc : c.isDigit = true) :
    ws1 (' ' :: c :: t) = some (c :: t) := by
  have hws : isPyWs c = false := isPyWs_eq_false_of_digit c hc
  have hsp : isPyWs ' ' = true := by decide
  simp [ws1, hsp, List.dropWhile, hws]

/-- Every month length fits in a day counter of at most 31. -/
theorem daysInMonth_le_31 (y m : Int) : daysInMonth y m ≤ 31 := by
  unfold daysInMonth
  split_ifs <;> omega

/-- C8, amended: the converter is side-effect free and deterministic (a pure
function of its two arguments); its zones are fixed constants, so the
unknown-zone failure cannot occur; and it fails exactly when the lenient
strptime pattern fails — a strictly smaller failure set than "not strict
YYYY-MM-DD / HH:MM" (see the counterexample): on every strict input it
succeeds. -/
theorem c8_strict_input_succeeds (d t : String)
    (hd : isStrictDate d = true) (ht : isStrictTime t = true) :
    (convert_et_to_paris d t).isSome = true := by
  unfold isStrictDate at hd
  unfold isStrictTime at ht
  split at hd
  next y1 y2 y3 y4 a m1 m2 b d1 d2 hdl =>
    split at ht
    next th1 th2 tc tn1 tn2 htl =>
      simp only [Bool.and_eq_true, and_assoc, beq_iff_eq, decide_eq_true_eq] at hd ht
      obtain ⟨hy1, hy2, hy3, hy4, ha, hm1, hm2, hb, hd1, hd2, hyv, hmv1, hmv2, hdv1, hdv2⟩ := hd
      obtain ⟨hh1, hh2, hc, hn1, hn2, hhv, hnv⟩ := ht
      subst ha
      subst hb
      subst hc
      have hdata : (d ++ " " ++ t).data = d.data ++ ' ' :: t.data := by
        rw [String.data_append, String.data_append, List.append_assoc]
        rfl
      have hd31 : 10*digitVal d1 + digitVal d2 ≤ 31 := by
        have h31 := daysInMonth_le_31
          ((1000*digitVal y1 + 100*digitVal y2 + 10*digitVal y3 + digitVal y4 : Nat) : Int)
          ((10*digitVal m1 + digitVal m2 : Nat) : Int)
        omega
      have hparse : parseDT (d ++ " " ++ t) =
          some (1000*digitVal y1 + 100*digitVal y2 + 10*digitVal y3 + digitVal y4,
            10*digitVal m1 + digitVal m2, 10*digitVal d1 + digitVal d2,
            10*digitVal th1 + digitVal th2, 10*digitVal tn1 + digitVal tn2) := by
        unfold parseDT
        rw [hdata, hdl, htl]
        simp only [List.cons_append, List.nil_append]
        rw [parseY_digits y1 y2 y3 y4 _ hy1 hy2 hy3 hy4]
        simp only [Option.bind]
        rw [lit_cons]
        simp only [Option.bind]
        rw [parseM_two m1 m2 _ hm1 hm2 hmv1 hmv2]
        simp only [Option.bind]
        rw [lit_cons]
        simp only [Option.bind]
        rw [parseD_two d1 d2 _ hd1 hd2 hdv1 hd31]
        simp only [Option.bind]
        rw [ws1_space_digit th1 _ hh1]
        simp only [Option.bind]
        rw [parseH_two th1 th2 _ hh1 hh2 hhv]
        simp only [Option.bind]
        rw [lit_cons]
        simp only [Option.bind]
        rw [parseMin_two tn1 tn2 _ hn1 hn2 hnv]
        simp only [Option.bind]
        rw [if_pos]
        exact ⟨trivial, hyv, hdv2⟩
      unfold convert_et_to_paris
      rw [hparse]
      rfl
    next => exact absurd ht (by simp)
  next => exact absurd hd (by simp)

/-- C8, amended, witness on the strict spec scenario input. -/
theorem c8_strict_input_succeeds_witness :
    isStrictDate "2024-03-10" = true ∧ isStrictTime "19:30" = true ∧
    (convert_et_to_paris "2024-03-10" "19:30").isSome = true :=
  ⟨by decide, by decide, c8_strict_input_succeeds "2024-03-10" "19:30" (by decide) (by decide)⟩

end NbaBot
